import Mathlib

/-!
Verification development for the Repository Analysis Engine in
`src/backend/server.py`.

The engine is embedded shallowly: a workspace (the checked-out repository
snapshot) is a list of files, each carrying its relative path segments, its
raw text content, and the results of the two external parsers the source
code delegates to (`ast.parse` for Python files, `json.load` for
`package.json`).  Those parser results are modelled as `Option` values:
`none` models the "file unreadable or unparsable" outcome that the source
swallows with `try/except`.  Everything the source code itself computes
(substring scans, the regex scans over JavaScript sources, the breadth-first
walk over the Python syntax tree, the directory walk, the entry point
catalog, the framework rule cascade, the insight fallback, and the
clone/cleanup control flow of the `/analyze` route) is translated directly
from the source into executable Lean definitions below.
-/

/-- Python `str.lower` restricted to the ASCII range used by the scanned
manifest keys and fingerprints. -/
def lowerStr (s : String) : String := String.mk (s.data.map Char.toLower)

/-- Boolean test that `needle` is a leading run of `hay` (character lists). -/
def startsWithB : List Char → List Char → Bool
  | [], _ => true
  | _ :: _, [] => false
  | n :: ns, h :: hs => n == h && startsWithB ns hs

/-- Boolean test that `needle` occurs contiguously inside `hay`; this is the
meaning of Python `needle in hay` on strings. -/
def containsB (needle : List Char) : List Char → Bool
  | [] => startsWithB needle []
  | h :: hs => startsWithB needle (h :: hs) || containsB needle hs

/-- Python substring membership `needle in hay`. -/
def strContains (hay needle : String) : Bool := containsB needle.data hay.data

/-- Boolean list membership for strings, as used by `in` on Python lists. -/
def strMem (x : String) (l : List String) : Bool := l.any (fun y => y == x)

/-- Result of `json.load` on a `package.json`, restricted to the fields the
source reads: the key sets of `dependencies` and `devDependencies` and the
`scripts` table. -/
structure PackageJson where
  dependencies : List String := []
  devDependencies : List String := []
  scripts : List (String × String) := []

/-- A Python abstract-syntax-tree node as far as `parse_imports_python`
observes it: an `ast.Import` node carries the names of its aliases, an
`ast.ImportFrom` node carries its (possibly absent) `module`, and every
other node only exposes the list of its child nodes to `ast.walk`. -/
inductive PyNode : Type where
  | imp (names : List String) : PyNode
  | impFrom (module : Option String) : PyNode
  | other (children : List PyNode) : PyNode

mutual

/-- Size of a Python AST node, used to bound the breadth-first walk. -/
def PyNode.size : PyNode → Nat
  | .other cs => 1 + PyNode.sizeList cs
  | _ => 1

/-- Total size of a list of Python AST nodes. -/
def PyNode.sizeList : List PyNode → Nat
  | [] => 0
  | c :: cs => PyNode.size c + PyNode.sizeList cs

end

/-- One file of the checked-out snapshot.  `parts` are the path segments
relative to the workspace root.  `content` is the text an `open(...).read()`
would produce (`none` models a read failure).  `pyAst` is the result of
`ast.parse` on the content of a Python file and `pkgJson` the result of
`json.load` on a JSON manifest; in both cases `none` models the parse or
read failure that the source swallows.  `statSize` is the `stat().st_size`
result, `none` modelling a failing `stat`. -/
structure FSFile where
  parts : List String
  content : Option String := none
  pyAst : Option PyNode := none
  pkgJson : Option PackageJson := none
  statSize : Option Nat := none

/-- `partsLe p q` holds when the segment list `p` is a leading run of `q`. -/
def partsLe : List String → List String → Bool
  | [], _ => true
  | _ :: _, [] => false
  | a :: as, b :: bs => a == b && partsLe as bs

/-- `Path.exists()` for the relative path `p`: some file of the snapshot
lies at `p` or strictly below it (the latter is how a directory manifests in
a git checkout). -/
def pathExists (ws : List FSFile) (p : List String) : Bool :=
  ws.any (fun f => partsLe p f.parts)

/-- The file stored at exactly the relative path `p`, if any. -/
def findFile (ws : List FSFile) (p : List String) : Option FSFile :=
  ws.find? (fun f => f.parts == p)

/-- Open-and-`json.load` a manifest: `none` when the file is absent,
unreadable or unparsable. -/
def jsonOf (ws : List FSFile) (p : List String) : Option PackageJson :=
  (findFile ws p).bind FSFile.pkgJson

/-- Open-and-read a text file: `none` when absent or unreadable. -/
def contentOf (ws : List FSFile) (p : List String) : Option String :=
  (findFile ws p).bind FSFile.content

/-- Key membership in `{**data.get('dependencies', {}), **data.get('devDependencies', {})}`. -/
def depsHas (pkg : PackageJson) (k : String) : Bool :=
  strMem k pkg.dependencies || strMem k pkg.devDependencies

/-- The `package.json` block of `detect_framework` (source lines 63-90):
Next.js takes precedence over React in one `if/elif`, then Vue, Angular and
Svelte are checked independently; a missing or unparsable manifest yields
nothing. -/
def pkgFrameworks (ws : List FSFile) : List String :=
  if pathExists ws ["package.json"] then
    match jsonOf ws ["package.json"] with
    | some pkg =>
      (if depsHas pkg "next" then ["Next.js"]
       else if depsHas pkg "react" || depsHas pkg "react-dom" then ["React"]
       else []) ++
      (if depsHas pkg "vue" then ["Vue"] else []) ++
      (if depsHas pkg "angular" || depsHas pkg "@angular/core" then ["Angular"] else []) ++
      (if depsHas pkg "svelte" then ["Svelte"] else [])
    | none => []
  else []

/-- A file lies strictly below the `src` directory. -/
def underSrc (f : FSFile) : Bool :=
  match f.parts with
  | a :: _ :: _ => a == "src"
  | _ => false

/-- The basename of a file. -/
def fileName (f : FSFile) : String := (f.parts.getLast?).getD ""

/-- `src_dir.rglob('*.js*')` name filter: the basename matches the glob
`*.js*`, i.e. contains `.js`. -/
def jsNameMatch (f : FSFile) : Bool := strContains (fileName f) ".js"

/-- One candidate of the content-sampling loop (source lines 96-104): the
first 100 characters are read and scanned for the React fingerprint; an
unreadable candidate is skipped. -/
def reactSample (f : FSFile) : Bool :=
  underSrc f && jsNameMatch f &&
    (match f.content with
     | some c =>
       let p := String.mk (c.data.take 100)
       strContains (lowerStr p) "react" || strContains p "import React"
     | none => false)

/-- The content-sampling fallback of `detect_framework` (source lines
92-104): only run over `src/`, appends `React` at most once (the loop
breaks at the first hit). -/
def sampleFrameworks (ws : List FSFile) : List String :=
  if pathExists ws ["src"] then
    if ws.any reactSample then ["React"] else []
  else []

/-- The `requirements.txt` block of `detect_framework` (source lines
106-119): lowercase substring checks for django, flask and fastapi, in that
order. -/
def pyFrameworks (ws : List FSFile) : List String :=
  if pathExists ws ["requirements.txt"] then
    match contentOf ws ["requirements.txt"] with
    | some c =>
      let lc := lowerStr c
      (if strContains lc "django" then ["Django"] else []) ++
      (if strContains lc "flask" then ["Flask"] else []) ++
      (if strContains lc "fastapi" then ["FastAPI"] else [])
    | none => []
  else []

/-- The `go.mod` check of `detect_framework` (source lines 121-123). -/
def goFrameworks (ws : List FSFile) : List String :=
  if pathExists ws ["go.mod"] then ["Go"] else []

/-- The `pom.xml` and `build.gradle` checks of `detect_framework` (source
lines 125-129). -/
def javaFrameworks (ws : List FSFile) : List String :=
  (if pathExists ws ["pom.xml"] then ["Java/Maven"] else []) ++
  (if pathExists ws ["build.gradle"] then ["Java/Gradle"] else [])

/-- The ordered framework list accumulated by `detect_framework` (source
lines 59-130).  The sampling fallback runs exactly when the `package.json`
block contributed nothing. -/
def detect_framework_list (ws : List FSFile) : List String :=
  let fw1 := pkgFrameworks ws
  let fw2 := if fw1.isEmpty then fw1 ++ sampleFrameworks ws else fw1
  fw2 ++ pyFrameworks ws ++ goFrameworks ws ++ javaFrameworks ws

/-- `detect_framework` (source line 131): comma-join, `Unknown` fallback. -/
def detect_framework (ws : List FSFile) : String :=
  if (detect_framework_list ws).isEmpty then "Unknown"
  else String.intercalate ", " (detect_framework_list ws)

/-- The manifest-only part of the framework scan, i.e. `detect_framework`
with the content-sampling fallback removed.  This is the reference point
for the claim that sampling only runs when the manifest scan is silent. -/
def detect_framework_list_noSample (ws : List FSFile) : List String :=
  pkgFrameworks ws ++ pyFrameworks ws ++ goFrameworks ws ++ javaFrameworks ws

/-- The fixed entry point catalog of `find_entry_points` (source lines
138-143). -/
def common_entries : List String :=
  ["index.js", "index.ts", "index.jsx", "index.tsx",
   "main.py", "app.py", "server.py", "manage.py",
   "main.go", "main.java", "Main.java",
   "index.html", "App.js", "App.tsx"]

/-- `scripts.get(k)` on the parsed `package.json`. -/
def lookupScript (pkg : PackageJson) (k : String) : Option String :=
  (pkg.scripts.find? (fun kv => kv.1 == k)).map Prod.snd

/-- The `package.json` script entries of `find_entry_points` (source lines
149-161): a `start` script then a `dev` script, rendered with the fixed
`npm start: ` and `npm run dev: ` labels. -/
def scriptEntryList (ws : List FSFile) : List String :=
  if pathExists ws ["package.json"] then
    match jsonOf ws ["package.json"] with
    | some pkg =>
      (match lookupScript pkg "start" with
       | some c => ["npm start: " ++ c]
       | none => []) ++
      (match lookupScript pkg "dev" with
       | some c => ["npm run dev: " ++ c]
       | none => [])
    | none => []
  else []

/-- `find_entry_points` (source lines 133-171): the catalog at the root in
catalog order, then the two manifest scripts, then the catalog again under
`src/` with a `src/` label, skipping an entry already present in the list
accumulated so far. -/
def find_entry_points (ws : List FSFile) : List String :=
  let eps1 := common_entries.foldl
    (fun acc e => if pathExists ws [e] then acc ++ [e] else acc) []
  let eps2 := eps1 ++ scriptEntryList ws
  if pathExists ws ["src"] then
    common_entries.foldl
      (fun acc e =>
        if pathExists ws ["src", e] && !(strMem e acc) then acc ++ ["src/" ++ e]
        else acc)
      eps2
  else eps2

/-- `ast.walk` driven import collection (source lines 179-185): the queue is
processed breadth first; an `ast.Import` contributes the names of all of its
aliases, an `ast.ImportFrom` contributes its module when present, and any
other node only feeds its children into the queue.  The fuel argument is a
bound on the number of nodes still to be processed; `PyNode.sizeList` of the
initial queue always suffices. -/
def walkImports : Nat → List PyNode → List String
  | 0, _ => []
  | _ + 1, [] => []
  | fuel + 1, PyNode.imp names :: rest => names ++ walkImports fuel rest
  | fuel + 1, PyNode.impFrom m :: rest =>
    (match m with
     | some s => [s]
     | none => []) ++ walkImports fuel rest
  | fuel + 1, PyNode.other cs :: rest => walkImports fuel (rest ++ cs)

/-- `parse_imports_python` (source lines 173-188) as a function of the
`ast.parse` outcome: a read or parse failure yields the empty list. -/
def parse_imports_python : Option PyNode → List String
  | none => []
  | some t => walkImports (PyNode.sizeList [t]) [t]

/-- Python `\s` (the whitespace class of the `re` module, ASCII part). -/
def isPySpace (c : Char) : Bool :=
  c == ' ' || c == Char.ofNat 9 || c == Char.ofNat 10 || c == Char.ofNat 13 ||
  c == Char.ofNat 11 || c == Char.ofNat 12

/-- A single or double quotation mark, the `['"]` class of the source
patterns. -/
def isQuoteCh (c : Char) : Bool := c == Char.ofNat 39 || c == Char.ofNat 34

/-- Continuation of the ES-module pattern after its `from` keyword:
`\s+['"]([^'"]+)['"]`, returning the captured specifier and the characters
after the match. -/
def esTail (cs : List Char) : Option (List Char × List Char) :=
  let w := cs.takeWhile isPySpace
  let r := cs.dropWhile isPySpace
  if w.isEmpty then none
  else
    match r with
    | [] => none
    | q :: r1 =>
      if isQuoteCh q then
        let cap := r1.takeWhile (fun c => !(isQuoteCh c))
        let r2 := r1.dropWhile (fun c => !(isQuoteCh c))
        if cap.isEmpty then none
        else
          match r2 with
          | q2 :: rest => if isQuoteCh q2 then some (cap, rest) else none
          | [] => none
      else none

/-- The lazy `.*?from` part of the ES-module pattern: scan forward one
character at a time (never across a newline, which `.` does not match) for
a `from` whose continuation succeeds. -/
def esFromScan : List Char → Option (List Char × List Char)
  | [] => none
  | c :: rest =>
    match (if startsWithB ("from".data) (c :: rest)
           then esTail ((c :: rest).drop 4) else none) with
    | some r => some r
    | none => if c == Char.ofNat 10 then none else esFromScan rest

/-- Match of the full ES-module pattern
`import\s+.*?from\s+['"]([^'"]+)['"]` anchored at the head of `cs`. -/
def matchES (cs : List Char) : Option (List Char × List Char) :=
  if startsWithB ("import".data) cs then
    let r1 := cs.drop 6
    if (r1.takeWhile isPySpace).isEmpty then none
    else esFromScan (r1.dropWhile isPySpace)
  else none

/-- `re.findall` scanning loop for the ES-module pattern: try the pattern at
every position, resuming after the end of each match.  The fuel argument
bounds the scan; the length of the input always suffices because every
match consumes at least one character. -/
def esFindAll : Nat → List Char → List String
  | 0, _ => []
  | _ + 1, [] => []
  | fuel + 1, c :: rest =>
    match matchES (c :: rest) with
    | some (cap, after) => String.mk cap :: esFindAll fuel after
    | none => esFindAll fuel rest

/-- Match of the require pattern `require\(['"]([^'"]+)['"]\)` anchored at
the head of `cs`. -/
def matchRequire (cs : List Char) : Option (List Char × List Char) :=
  if startsWithB ("require(".data) cs then
    match cs.drop 8 with
    | q :: r1 =>
      if isQuoteCh q then
        let cap := r1.takeWhile (fun c => !(isQuoteCh c))
        let r2 := r1.dropWhile (fun c => !(isQuoteCh c))
        if cap.isEmpty then none
        else
          match r2 with
          | q2 :: rp :: rest =>
            if isQuoteCh q2 && rp == ')' then some (cap, rest) else none
          | _ => none
      else none
    | [] => none
  else none

/-- `re.findall` scanning loop for the require pattern. -/
def reqFindAll : Nat → List Char → List String
  | 0, _ => []
  | _ + 1, [] => []
  | fuel + 1, c :: rest =>
    match matchRequire (c :: rest) with
    | some (cap, after) => String.mk cap :: reqFindAll fuel after
    | none => reqFindAll fuel rest

/-- `parse_imports_js` (source lines 190-206) as a function of the file
content: all ES-module matches in order, then all require matches in order;
a read failure yields the empty list. -/
def parse_imports_js : Option String → List String
  | none => []
  | some c => esFindAll c.data.length c.data ++ reqFindAll c.data.length c.data

/-- The recognized code extension set of `analyze_file_structure` (source
line 214). -/
def code_extensions : List String :=
  [".py", ".js", ".jsx", ".ts", ".tsx", ".go", ".java"]

/-- `PurePath.suffix`: the final extension of a basename, empty for names
without a dot, for dotfiles and for names ending in a dot. -/
def pathSuffix (name : String) : String :=
  let cs := name.data
  match cs.reverse.findIdx? (fun c => c == '.') with
  | some j =>
    let i := cs.length - 1 - j
    if 0 < i ∧ i < cs.length - 1 then String.mk (cs.drop i) else ""
  | none => ""

/-- The extension of a snapshot file. -/
def fileExt (f : FSFile) : String := pathSuffix (fileName f)

/-- `str(rel_path)` for a snapshot file. -/
def relPath (f : FSFile) : String := String.intercalate "/" f.parts

/-- The `FileNode` record of the source (lines 37-43).  The random `uuid4`
identifier is not modelled: it carries no information about the analysis. -/
structure FileNode where
  name : String
  path : String
  type : String
  imports : List String
  size : Nat
deriving DecidableEq

/-- The ignorable directory segments of the tree walk (source line 222). -/
def skipDirs : List String := ["node_modules", "venv", "__pycache__", "dist", "build"]

/-- The exclusion policy of the tree walk (source lines 218-223): skip a
path with a dot-prefixed segment or with a segment from the ignorable set.
The source applies the dot check to the absolute path; the segments added
by `tempfile.mkdtemp` never start with a dot, so the check reduces to the
relative segments modelled here. -/
def includeFile (f : FSFile) : Bool :=
  !(f.parts.any (fun part => startsWithB (".".data) part.data)) &&
  !(f.parts.any (fun part => strMem part skipDirs))

/-- The per-file import dispatch of the tree walk (source lines 228-233):
only `.py` files and the four JavaScript-family extensions are handed to an
extractor; every other extension, recognized or not, keeps the empty list. -/
def fileImports (f : FSFile) : List String :=
  let ext := fileExt f
  if strMem ext code_extensions then
    if ext == ".py" then parse_imports_python f.pyAst
    else if strMem ext [".js", ".jsx", ".ts", ".tsx"] then parse_imports_js f.content
    else []
  else []

/-- Construction of one `FileNode` (source lines 240-247). -/
def mkNode (f : FSFile) : FileNode :=
  { name := fileName f
    path := relPath f
    type := if fileExt f == "" then "file" else fileExt f
    imports := fileImports f
    size := f.statSize.getD 0 }

/-- One iteration of the tree walk loop (source lines 216-251): an included
file appends its node, and appends a dependency entry exactly when the list
of its imports is non-empty. -/
def walkStep (acc : List FileNode × List (String × List String)) (f : FSFile) :
    List FileNode × List (String × List String) :=
  if includeFile f then
    let node := mkNode f
    (acc.1 ++ [node],
     if node.imports.isEmpty then acc.2 else acc.2 ++ [(node.path, node.imports)])
  else acc

/-- `analyze_file_structure` (source lines 208-253).  The dependency map is
kept as the association list in insertion order. -/
def analyze_file_structure (ws : List FSFile) :
    List FileNode × List (String × List String) :=
  ws.foldl walkStep ([], [])

/-- The `repo_info` dictionary handed to `get_ai_insights` (source lines
323-329). -/
structure RepoInfo where
  repo_name : String
  framework : String
  entry_points : List String
  file_count : Nat
  dependencies : List (String × List String)

/-- The fixed-shape prompt of `get_ai_insights` (source lines 268-282). -/
def mkPrompt (info : RepoInfo) : String :=
  "Analyze this repository and provide key insights:\n\nRepository: " ++
  info.repo_name ++ "\nFramework: " ++ info.framework ++ "\nEntry Points: " ++
  String.intercalate ", " info.entry_points ++ "\nTotal Files: " ++
  toString info.file_count ++ "\nKey Dependencies: " ++
  String.intercalate ", " ((info.dependencies.map Prod.fst).take 10) ++
  "\n\nProvide:\n1. Brief overview of the project structure\n2. How to run/execute the project\n3. Key architectural patterns identified\n4. Suggestions for understanding the codebase\n\nKeep it concise and actionable."

/-- Environment of the insight pass: the `EMERGENT_LLM_KEY` variable
(`none` when unset; the empty string is also treated as missing by the
source through Python truthiness) and the external text-generation call,
which either returns free text or raises, modelled as `Except` over the
exception message. -/
structure LlmEnv where
  apiKey : Option String
  send : String → Except String String

/-- `get_ai_insights` (source lines 255-288): a missing key yields the fixed
placeholder, a raising call yields the placeholder carrying the exception
text, and a successful call returns the response unchanged. -/
def get_ai_insights (env : LlmEnv) (info : RepoInfo) : String :=
  match env.apiKey with
  | none => "AI insights unavailable: API key not configured"
  | some k =>
    if k == "" then "AI insights unavailable: API key not configured"
    else
      match env.send (mkPrompt info) with
      | Except.ok r => r
      | Except.error e => "AI insights unavailable: " ++ e

/-- Python `rstrip('/')`. -/
def rstripSlashes (s : String) : String :=
  String.mk ((s.data.reverse.dropWhile (fun c => c == '/')).reverse)

/-- Repository name derivation of the `/analyze` route (source line 311). -/
def repoNameOf (url : String) : String :=
  String.replace (((rstripSlashes url).splitOn "/").getLastD "") ".git" ""

/-- Failure modes of one `/analyze` run: an `HTTPException` with its status
code and detail, or a propagated database failure from `insert_one`. -/
inductive AnalyzeError where
  | http (status : Nat) (detail : String)
  | dbError
deriving DecidableEq

/-- The `RepositoryAnalysis` record of the source (lines 45-56); the random
identifier and the creation timestamp are not modelled. -/
structure RepositoryAnalysis where
  github_url : String
  repo_name : String
  framework : String
  entry_points : List String
  file_structure : List FileNode
  dependencies : List (String × List String)
  ai_insights : String

/-- Environment of one `/analyze` run: the outcome of
`Repo.clone_from` (an error carries the exception text), the insight
environment, and whether the database insert succeeds. -/
structure AnalyzeEnv where
  cloneResult : Except String (List FSFile)
  llm : LlmEnv
  dbOk : Bool

/-- The `try` body of `analyze_repository` (source lines 298-349): clone,
derive the name, run the four analysis passes, request insights, persist.
A clone failure raises the 400 `HTTPException`; a database failure
propagates. -/
def analyze_body (env : AnalyzeEnv) (github_url : String) :
    Except AnalyzeError RepositoryAnalysis :=
  match env.cloneResult with
  | Except.error e =>
    Except.error (AnalyzeError.http 400 ("Failed to clone repository: " ++ e))
  | Except.ok ws =>
    let repo_name := repoNameOf github_url
    let framework := detect_framework ws
    let entry_points := find_entry_points ws
    let fs := analyze_file_structure ws
    let ai_insights := get_ai_insights env.llm
      { repo_name := repo_name, framework := framework,
        entry_points := entry_points, file_count := fs.1.length,
        dependencies := fs.2 }
    if env.dbOk then
      Except.ok
        { github_url := github_url, repo_name := repo_name,
          framework := framework, entry_points := entry_points,
          file_structure := fs.1, dependencies := fs.2,
          ai_insights := ai_insights }
    else Except.error AnalyzeError.dbError

/-- Outcome of one `/analyze` run: the response or error, together with
whether the temporary clone directory was removed when the route returned. -/
structure AnalyzeOutcome where
  result : Except AnalyzeError RepositoryAnalysis
  tempDirRemoved : Bool

/-- `analyze_repository` (source lines 295-357): the body runs inside
`try/finally`, and the `finally` block deletes the temporary directory on
every exit path, before the result or the exception leaves the route.  The
embedding models `shutil.rmtree` as performing the deletion (its own
defensive `try/except` never fires when the operating system call
succeeds). -/
def analyze_repository (env : AnalyzeEnv) (github_url : String) : AnalyzeOutcome :=
  { result := analyze_body env github_url, tempDirRemoved := true }

/-- The import references a Python syntax tree declares: names of `import`
aliases and modules of `from ... import` statements, anywhere in the
tree. -/
inductive DeclaresImport : PyNode → String → Prop where
  | imp {names : List String} {x : String} :
      x ∈ names → DeclaresImport (PyNode.imp names) x
  | impFrom {x : String} : DeclaresImport (PyNode.impFrom (some x)) x
  | child {cs : List PyNode} {c : PyNode} {x : String} :
      c ∈ cs → DeclaresImport c x → DeclaresImport (PyNode.other cs) x

/-- The root-level catalog matches, as the ordering claim describes them. -/
def rootEntryList (ws : List FSFile) : List String :=
  common_entries.filter (fun e => pathExists ws [e])

/-- The `src/`-level catalog matches, as the ordering claim describes them:
catalog order, `src/` label, entries already found at the root omitted. -/
def srcEntryList (ws : List FSFile) : List String :=
  (common_entries.filter
    (fun e => pathExists ws ["src", e] && !(strMem e (rootEntryList ws)))).map
    (fun e => "src/" ++ e)

/-! Concrete inputs used by the end-to-end scenario, the counterexample and
the witnesses below. -/

/-- Syntax tree of `import os` followed by `from foo import bar`. -/
def c1_main_ast : PyNode :=
  PyNode.other [PyNode.imp ["os"], PyNode.impFrom (some "foo")]

/-- The minimal workspace of the end-to-end scenario: one `requirements.txt`
pinning fastapi and one `main.py` importing `os` and `from foo import bar`. -/
def c1_ws : List FSFile :=
  [ { parts := ["requirements.txt"], content := some "fastapi==0.95.0",
      statSize := some 15 },
    { parts := ["main.py"], content := some "main module text",
      pyAst := some c1_main_ast, statSize := some 29 } ]

/-- A manifest declaring both the meta-framework and its base framework. -/
def c2_pkg : PackageJson :=
  { dependencies := ["next", "react"], devDependencies := [], scripts := [] }

/-- A workspace whose `package.json` declares both `next` and `react`. -/
def c2_ws : List FSFile :=
  [ { parts := ["package.json"], content := some "manifest text",
      pkgJson := some c2_pkg } ]

/-- A workspace with a Django `requirements.txt` and a React-fingerprinted
file under `src/`: the manifest scan yields a framework, yet the sampling
pass still contributes. -/
def c3_ws : List FSFile :=
  [ { parts := ["requirements.txt"], content := some "django" },
    { parts := ["src", "App.js"], content := some "import React" } ]

/-- A workspace whose `package.json` alone yields a framework. -/
def c3_wit_ws : List FSFile :=
  [ { parts := ["package.json"],
      pkgJson := some { dependencies := ["react"], devDependencies := [], scripts := [] } } ]

/-- A manifest with both conventional run scripts. -/
def c5_pkg : PackageJson :=
  { dependencies := ["react"], devDependencies := [],
    scripts := [("start", "node index.js"), ("dev", "vite")] }

/-- A workspace exercising all three entry point sources. -/
def c5_ws : List FSFile :=
  [ { parts := ["package.json"], pkgJson := some c5_pkg },
    { parts := ["index.js"], content := some "console text" },
    { parts := ["src", "index.js"], content := some "src index text" },
    { parts := ["src", "App.js"], content := some "app text" } ]

/-- A workspace with one importing Python file and one plain text file. -/
def c6_ws : List FSFile :=
  [ { parts := ["a.py"], pyAst := some (PyNode.other [PyNode.imp ["os"]]) },
    { parts := ["b.txt"], content := some "hello" } ]

/-- An analysis environment whose clone attempt fails. -/
def c7_env : AnalyzeEnv :=
  { cloneResult := Except.error "no such repo",
    llm := { apiKey := none, send := fun _ => Except.ok "" },
    dbOk := true }

/-- An insight environment with no API key configured. -/
def c8_env : LlmEnv := { apiKey := none, send := fun _ => Except.ok "" }

/-- A minimal profile summary. -/
def c8_info : RepoInfo :=
  { repo_name := "r", framework := "Unknown", entry_points := [],
    file_count := 0, dependencies := [] }

/-- A lone Go source file. -/
def c10_file : FSFile :=
  { parts := ["main.go"], content := some "package main", statSize := some 12 }

/-- A workspace holding only a Go source file. -/
def c10_ws : List FSFile := [c10_file]

/-! Helper lemmas about the boolean list and string utilities. -/

theorem strMem_iff {x : String} {l : List String} : strMem x l = true ↔ x ∈ l := by
  simp [strMem, List.any_eq_true, beq_iff_eq]

theorem strMem_append (x : String) (a b : List String) :
    strMem x (a ++ b) = (strMem x a || strMem x b) := by
  simp [strMem, List.any_append]

theorem startsWithB_append_self (l m : List Char) : startsWithB l (l ++ m) = true := by
  induction l with
  | nil => rfl
  | cons c cs ih => simp [startsWithB, ih]

theorem ne_append_of_not_startsWithB (p e : String)
    (hb : startsWithB p.data e.data = false) : ∀ s, e ≠ p ++ s := by
  intro s h
  have h2 : startsWithB p.data e.data = true := by
    rw [h, String.data_append]
    exact startsWithB_append_self _ _
  rw [hb] at h2
  exact Bool.noConfusion h2

theorem partsLe_refl (p : List String) : partsLe p p = true := by
  induction p with
  | nil => rfl
  | cons a as ih => simp [partsLe, ih]

theorem pathExists_of_findFile {ws : List FSFile} {p : List String} {f : FSFile}
    (h : findFile ws p = some f) : pathExists ws p = true := by
  have hm := List.mem_of_find?_eq_some h
  have hp : f.parts = p := by simpa using List.find?_some h
  simp only [pathExists, List.any_eq_true]
  exact ⟨f, hm, by rw [hp]; exact partsLe_refl p⟩

theorem pathExists_src_of_sub (ws : List FSFile) (e : String)
    (h : pathExists ws ["src", e] = true) : pathExists ws ["src"] = true := by
  simp only [pathExists, List.any_eq_true] at h ⊢
  obtain ⟨f, hf, hp⟩ := h
  refine ⟨f, hf, ?_⟩
  cases hq : f.parts with
  | nil => rw [hq] at hp; simp [partsLe] at hp
  | cons a rest =>
    rw [hq] at hp
    simp [partsLe] at hp ⊢
    exact hp.1

theorem foldl_append_filter (p : String → Bool) :
    ∀ (es acc : List String),
      es.foldl (fun a e => if p e then a ++ [e] else a) acc = acc ++ es.filter p := by
  intro es
  induction es with
  | nil => intro acc; simp
  | cons e es ih =>
    intro acc
    cases hp : p e <;> simp [List.foldl_cons, hp, ih, List.filter_cons]

theorem fold_src_general (q : String → Bool) :
    ∀ (es base extra : List String),
      (∀ e ∈ es, ∀ s, e ≠ "src/" ++ s) →
      (∀ e ∈ es, e ∉ extra) →
      es.foldl
        (fun acc e => if q e && !(strMem e acc) then acc ++ ["src/" ++ e] else acc)
        (base ++ extra)
        = base ++ extra ++
          (es.filter (fun e => q e && !(strMem e base))).map (fun e => "src/" ++ e) := by
  intro es
  induction es with
  | nil => intro base extra h1 h2; simp
  | cons e es ih =>
    intro base extra h1 h2
    have hne : strMem e extra = false := by
      cases hse : strMem e extra
      · rfl
      · exact absurd (strMem_iff.mp hse) (h2 e (List.mem_cons_self e es))
    have hcond : (q e && !(strMem e (base ++ extra))) = (q e && !(strMem e base)) := by
      rw [strMem_append, hne, Bool.or_false]
    have h1t : ∀ x ∈ es, ∀ s, x ≠ "src/" ++ s :=
      fun x hx => h1 x (List.mem_cons_of_mem e hx)
    rw [List.foldl_cons]
    cases hq : q e && !(strMem e base) with
    | true =>
      have step : (if q e && !(strMem e (base ++ extra))
          then (base ++ extra) ++ ["src/" ++ e] else (base ++ extra))
          = base ++ (extra ++ ["src/" ++ e]) := by
        rw [hcond, hq, if_pos rfl, List.append_assoc]
      simp only [step]
      have h2t : ∀ x ∈ es, x ∉ extra ++ ["src/" ++ e] := by
        intro x hx hmem
        rcases List.mem_append.mp hmem with hm | hm
        · exact h2 x (List.mem_cons_of_mem e hx) hm
        · have : x = "src/" ++ e := by simpa using hm
          exact h1 x (List.mem_cons_of_mem e hx) e this
      rw [ih base (extra ++ ["src/" ++ e]) h1t h2t]
      simp [List.filter_cons, hq, List.append_assoc]
    | false =>
      have step : (if q e && !(strMem e (base ++ extra))
          then (base ++ extra) ++ ["src/" ++ e] else (base ++ extra))
          = base ++ extra := by
        rw [hcond, hq]
        simp
      simp only [step]
      rw [ih base extra h1t (fun x hx => h2 x (List.mem_cons_of_mem e hx))]
      simp [List.filter_cons, hq]

theorem common_entries_no_src : ∀ e ∈ common_entries, ∀ s, e ≠ "src/" ++ s := by
  intro e he
  simp only [common_entries, List.mem_cons, List.not_mem_nil, or_false] at he
  rcases he with rfl | rfl | rfl | rfl | rfl | rfl | rfl | rfl | rfl | rfl | rfl | rfl | rfl | rfl <;>
    exact ne_append_of_not_startsWithB _ _ (by decide)

theorem mem_scriptEntryList (ws : List FSFile) (x : String) (hx : x ∈ scriptEntryList ws) :
    (∃ c, x = "npm start: " ++ c) ∨ ∃ c, x = "npm run dev: " ++ c := by
  unfold scriptEntryList at hx
  split at hx
  · split at hx
    · rcases List.mem_append.mp hx with hm | hm
      · split at hm
        · left; exact ⟨_, by simpa using hm⟩
        · simp at hm
      · split at hm
        · right; exact ⟨_, by simpa using hm⟩
        · simp at hm
    · simp at hx
  · simp at hx

theorem common_entries_not_script (ws : List FSFile) :
    ∀ e ∈ common_entries, e ∉ scriptEntryList ws := by
  intro e he hmem
  have hs := mem_scriptEntryList ws e hmem
  simp only [common_entries, List.mem_cons, List.not_mem_nil, or_false] at he
  rcases he with rfl | rfl | rfl | rfl | rfl | rfl | rfl | rfl | rfl | rfl | rfl | rfl | rfl | rfl <;>
    rcases hs with ⟨c, hc⟩ | ⟨c, hc⟩ <;>
    exact ne_append_of_not_startsWithB _ _ (by decide) c hc

theorem srcEntryList_eq_nil_of_no_src (ws : List FSFile)
    (h : pathExists ws ["src"] = false) : srcEntryList ws = [] := by
  unfold srcEntryList
  rw [List.filter_eq_nil_iff.mpr, List.map_nil]
  intro e _ hc
  have h1 : pathExists ws ["src", e] = true := by
    cases hp : pathExists ws ["src", e]
    · rw [hp] at hc; simp at hc
    · rfl
  rw [pathExists_src_of_sub ws e h1] at h
  exact Bool.noConfusion h

/-- C5: for every workspace the entry point list is the root-level catalog
matches in catalog order, then the `npm start: ` and `npm run dev: ` script
entries, then the catalog matches under `src/` with the `src/` label, where
a `src/`-level match is omitted exactly when the same bare filename was
already found at the root. -/
theorem c5_entry_point_ordering (ws : List FSFile) :
    find_entry_points ws = rootEntryList ws ++ scriptEntryList ws ++ srcEntryList ws := by
  unfold find_entry_points
  have h1 : common_entries.foldl
      (fun acc e => if pathExists ws [e] then acc ++ [e] else acc) [] = rootEntryList ws := by
    rw [foldl_append_filter]
    simp [rootEntryList]
  cases hsrc : pathExists ws ["src"] with
  | false =>
    simp only [hsrc, Bool.false_eq_true, if_false, h1]
    rw [srcEntryList_eq_nil_of_no_src ws hsrc, List.append_nil]
  | true =>
    simp only [hsrc, if_true, h1]
    rw [fold_src_general (fun e => pathExists ws ["src", e]) common_entries
      (rootEntryList ws) (scriptEntryList ws) common_entries_no_src
      (common_entries_not_script ws)]
    rfl

theorem PyNode.size_pos (n : PyNode) : 1 ≤ PyNode.size n := by
  cases n <;> simp [PyNode.size]

theorem PyNode.sizeList_append (a b : List PyNode) :
    PyNode.sizeList (a ++ b) = PyNode.sizeList a + PyNode.sizeList b := by
  induction a with
  | nil => simp [PyNode.sizeList]
  | cons c cs ih => simp [PyNode.sizeList, ih]; omega

theorem declares_imp_iff {ns : List String} {x : String} :
    DeclaresImport (PyNode.imp ns) x ↔ x ∈ ns := by
  constructor
  · intro h; cases h; assumption
  · exact DeclaresImport.imp

theorem declares_impFrom_iff {m : Option String} {x : String} :
    DeclaresImport (PyNode.impFrom m) x ↔ m = some x := by
  constructor
  · intro h; cases h; rfl
  · rintro rfl; exact DeclaresImport.impFrom

theorem declares_other_iff {cs : List PyNode} {x : String} :
    DeclaresImport (PyNode.other cs) x ↔ ∃ c ∈ cs, DeclaresImport c x := by
  constructor
  · intro h
    cases h with
    | child hc hd => exact ⟨_, hc, hd⟩
  · rintro ⟨c, hc, hd⟩; exact DeclaresImport.child hc hd

theorem walkImports_mem (x : String) :
    ∀ (fuel : Nat) (q : List PyNode), PyNode.sizeList q ≤ fuel →
      (x ∈ walkImports fuel q ↔ ∃ t ∈ q, DeclaresImport t x) := by
  intro fuel
  induction fuel with
  | zero =>
    intro q hq
    have hnil : q = [] := by
      cases q with
      | nil => rfl
      | cons hd rest =>
        exfalso
        have := PyNode.size_pos hd
        simp [PyNode.sizeList] at hq
        omega
    subst hnil
    simp [walkImports]
  | succ fuel ih =>
    intro q hq
    cases q with
    | nil => simp [walkImports]
    | cons hd rest =>
      cases hd with
      | imp ns =>
        have hr : PyNode.sizeList rest ≤ fuel := by
          have := PyNode.size_pos (PyNode.imp ns)
          simp [PyNode.sizeList] at hq
          omega
        simp [walkImports, List.mem_append, ih rest hr, declares_imp_iff,
          List.mem_cons, exists_eq_or_imp]
      | impFrom m =>
        have hr : PyNode.sizeList rest ≤ fuel := by
          have := PyNode.size_pos (PyNode.impFrom m)
          simp [PyNode.sizeList] at hq
          omega
        cases m with
        | none =>
          simp [walkImports, ih rest hr, declares_impFrom_iff,
            List.mem_cons, exists_eq_or_imp]
        | some s =>
          simp [walkImports, ih rest hr, declares_impFrom_iff,
            List.mem_cons, exists_eq_or_imp, eq_comm]
      | other cs =>
        have hr : PyNode.sizeList (rest ++ cs) ≤ fuel := by
          rw [PyNode.sizeList_append]
          simp [PyNode.sizeList, PyNode.size] at hq
          omega
        have hw := ih (rest ++ cs) hr
        have hstep : walkImports (fuel + 1) (PyNode.other cs :: rest)
            = walkImports fuel (rest ++ cs) := rfl
        rw [hstep, hw]
        constructor
        · rintro ⟨t, ht, hd⟩
          rcases List.mem_append.mp ht with h | h
          · exact ⟨t, List.mem_cons_of_mem _ h, hd⟩
          · exact ⟨PyNode.other cs, List.mem_cons_self _ _, DeclaresImport.child h hd⟩
        · rintro ⟨t, ht, hd⟩
          rcases List.mem_cons.mp ht with rfl | h
          · obtain ⟨c, hc, hdc⟩ := declares_other_iff.mp hd
            exact ⟨c, List.mem_append.mpr (Or.inr hc), hdc⟩
          · exact ⟨t, List.mem_append.mpr (Or.inl h), hd⟩

theorem mem_pyFrameworks (ws : List FSFile) (x : String) (hx : x ∈ pyFrameworks ws) :
    x = "Django" ∨ x = "Flask" ∨ x = "FastAPI" := by
  unfold pyFrameworks at hx
  split at hx
  · split at hx
    · simp only [List.mem_append] at hx
      rcases hx with (h | h) | h <;> split at h <;> simp_all
    · simp at hx
  · simp at hx

theorem mem_goFrameworks (ws : List FSFile) (x : String) (hx : x ∈ goFrameworks ws) :
    x = "Go" := by
  unfold goFrameworks at hx
  split at hx
  · simpa using hx
  · simp at hx

theorem mem_javaFrameworks (ws : List FSFile) (x : String) (hx : x ∈ javaFrameworks ws) :
    x = "Java/Maven" ∨ x = "Java/Gradle" := by
  unfold javaFrameworks at hx
  simp only [List.mem_append] at hx
  rcases hx with h | h <;> split at h <;> simp_all

theorem analyze_fold_general :
    ∀ (l : List FSFile) (acc : List FileNode × List (String × List String)),
      l.foldl walkStep acc =
        (acc.1 ++ (l.filter includeFile).map mkNode,
         acc.2 ++ ((l.filter includeFile).map mkNode).filterMap
           (fun n => if n.imports.isEmpty then none else some (n.path, n.imports))) := by
  intro l
  induction l with
  | nil => intro acc; simp
  | cons f l ih =>
    intro acc
    rw [List.foldl_cons, ih]
    cases hinc : includeFile f with
    | false => simp [walkStep, hinc, List.filter_cons]
    | true =>
      cases himp : (mkNode f).imports.isEmpty with
      | true =>
        have himp2 : (mkNode f).imports = [] := by simpa using himp
        simp [walkStep, hinc, himp, himp2, List.filter_cons, List.filterMap_cons,
          List.append_assoc]
      | false =>
        have himp2 : ¬ (mkNode f).imports = [] := by simpa using himp
        simp [walkStep, hinc, himp, himp2, List.filter_cons, List.filterMap_cons,
          List.append_assoc]

theorem analyze_file_structure_eq (ws : List FSFile) :
    analyze_file_structure ws =
      ((ws.filter includeFile).map mkNode,
       ((ws.filter includeFile).map mkNode).filterMap
         (fun n => if n.imports.isEmpty then none else some (n.path, n.imports))) := by
  unfold analyze_file_structure
  rw [analyze_fold_general]
  simp

theorem filterMap_deps (l : List FileNode) :
    l.filterMap (fun n => if n.imports.isEmpty then none else some (n.path, n.imports))
      = (l.filter (fun n => !n.imports.isEmpty)).map (fun n => (n.path, n.imports)) := by
  induction l with
  | nil => rfl
  | cons n l ih =>
    cases h : n.imports.isEmpty with
    | true =>
      have h2 : n.imports = [] := by simpa using h
      have e1 : (n :: l).filterMap
          (fun n => if n.imports.isEmpty then none else some (n.path, n.imports))
          = l.filterMap
            (fun n => if n.imports.isEmpty then none else some (n.path, n.imports)) := by
        simp [List.filterMap_cons, h2]
      have e2 : (n :: l).filter (fun n => !n.imports.isEmpty)
          = l.filter (fun n => !n.imports.isEmpty) := by
        simp [List.filter_cons, h]
      rw [e1, e2, ih]
    | false =>
      have h2 : ¬ n.imports = [] := by simpa using h
      have e1 : (n :: l).filterMap
          (fun n => if n.imports.isEmpty then none else some (n.path, n.imports))
          = (n.path, n.imports) :: l.filterMap
            (fun n => if n.imports.isEmpty then none else some (n.path, n.imports)) := by
        simp [List.filterMap_cons, h2]
      have e2 : (n :: l).filter (fun n => !n.imports.isEmpty)
          = n :: l.filter (fun n => !n.imports.isEmpty) := by
        simp [List.filter_cons, h]
      rw [e1, e2, List.map_cons, ih]

theorem isPrefixOf_append_right (l₁ : List Char) :
    ∀ (l₂ m : List Char), List.isPrefixOf l₁ l₂ = true →
      List.isPrefixOf l₁ (l₂ ++ m) = true := by
  induction l₁ with
  | nil => intro l₂ m _; simp [List.isPrefixOf]
  | cons a as ih =>
    intro l₂ m h
    cases l₂ with
    | nil => simp [List.isPrefixOf] at h
    | cons b bs =>
      simp only [List.isPrefixOf, List.cons_append, Bool.and_eq_true] at h ⊢
      exact ⟨h.1, ih bs m h.2⟩

/-- C2: whenever the parsed `package.json` dependencies (or devDependencies)
contain the key `next`, the framework list of `detect_framework` contains
`Next.js` and never `React`, even when `react` is also declared; when they
contain `react` or `react-dom` but not `next`, the list contains `React`.
(`detect_framework` renders this list comma-joined.) -/
theorem c2_meta_framework_precedence (ws : List FSFile) (pkg : PackageJson)
    (hpkg : jsonOf ws ["package.json"] = some pkg) :
    (depsHas pkg "next" = true →
      "Next.js" ∈ detect_framework_list ws ∧ "React" ∉ detect_framework_list ws) ∧
    ((depsHas pkg "react" = true ∨ depsHas pkg "react-dom" = true) →
      depsHas pkg "next" = false → "React" ∈ detect_framework_list ws) := by
  obtain ⟨f, hf⟩ : ∃ f, findFile ws ["package.json"] = some f := by
    cases hff : findFile ws ["package.json"] with
    | none => rw [jsonOf, hff] at hpkg; simp at hpkg
    | some f => exact ⟨f, rfl⟩
  have hpe : pathExists ws ["package.json"] = true := pathExists_of_findFile hf
  have hlist : pkgFrameworks ws =
      (if depsHas pkg "next" then ["Next.js"]
       else if depsHas pkg "react" || depsHas pkg "react-dom" then ["React"]
       else []) ++
      (if depsHas pkg "vue" then ["Vue"] else []) ++
      (if depsHas pkg "angular" || depsHas pkg "@angular/core" then ["Angular"] else []) ++
      (if depsHas pkg "svelte" then ["Svelte"] else []) := by
    simp [pkgFrameworks, hpe, hpkg]
  constructor
  · intro hnext
    have hsub : ∀ y ∈ pkgFrameworks ws,
        y = "Next.js" ∨ y = "Vue" ∨ y = "Angular" ∨ y = "Svelte" := by
      intro y hy
      rw [hlist] at hy
      simp only [hnext, if_true, List.mem_append] at hy
      rcases hy with ((h | h) | h) | h <;>
        first
          | (split at h <;> simp_all)
          | simp_all
    have h1 : "Next.js" ∈ pkgFrameworks ws := by
      rw [hlist]
      simp [hnext]
    have hne : (pkgFrameworks ws).isEmpty = false := by
      cases hh : pkgFrameworks ws
      · rw [hh] at h1; simp at h1
      · rfl
    constructor
    · simp [detect_framework_list, hne, List.mem_append, h1]
    · intro hmem
      simp only [detect_framework_list, hne, Bool.false_eq_true, if_false,
        List.mem_append] at hmem
      rcases hmem with ((hm | hm) | hm) | hm
      · rcases hsub _ hm with h | h | h | h <;> exact absurd h (by decide)
      · rcases mem_pyFrameworks ws _ hm with h | h | h <;> exact absurd h (by decide)
      · exact absurd (mem_goFrameworks ws _ hm) (by decide)
      · rcases mem_javaFrameworks ws _ hm with h | h <;> exact absurd h (by decide)
  · intro hreact hnnext
    have hor : (depsHas pkg "react" || depsHas pkg "react-dom") = true := by
      rcases hreact with h | h <;> simp [h]
    have h1 : "React" ∈ pkgFrameworks ws := by
      rw [hlist]
      simp [hnnext, hor]
    have hne : (pkgFrameworks ws).isEmpty = false := by
      cases hh : pkgFrameworks ws
      · rw [hh] at h1; simp at h1
      · rfl
    simp [detect_framework_list, hne, List.mem_append, h1]

/-- Witness for C2: a concrete workspace declaring both `next` and `react`
yields a framework list containing `Next.js` and not `React`. -/
theorem c2_meta_framework_precedence_witness :
    "Next.js" ∈ detect_framework_list c2_ws ∧ "React" ∉ detect_framework_list c2_ws :=
  (c2_meta_framework_precedence c2_ws c2_pkg rfl).1 rfl

theorem fileImports_go {f : FSFile} (h : fileExt f = ".go") : fileImports f = [] := by
  have h1 : strMem ".go" code_extensions = true := rfl
  have h2 : (".go" == ".py") = false := rfl
  have h3 : strMem ".go" [".js", ".jsx", ".ts", ".tsx"] = false := rfl
  simp only [fileImports, h, h1, h2, h3, if_true, Bool.false_eq_true, if_false]

theorem fileImports_java {f : FSFile} (h : fileExt f = ".java") : fileImports f = [] := by
  have h1 : strMem ".java" code_extensions = true := rfl
  have h2 : (".java" == ".py") = false := rfl
  have h3 : strMem ".java" [".js", ".jsx", ".ts", ".tsx"] = false := rfl
  simp only [fileImports, h, h1, h2, h3, if_true, Bool.false_eq_true, if_false]

/-- C1: the minimal workspace holding only a `requirements.txt` pinning
`fastapi==0.95.0` and a `main.py` importing `os` and `from foo import bar`
is labelled `FastAPI`, lists `main.py` among its entry points, and yields
the dependency map `{"main.py": ["os", "foo"]}`. -/
theorem c1_minimal_workspace_profile :
    detect_framework c1_ws = "FastAPI" ∧
    "main.py" ∈ find_entry_points c1_ws ∧
    (analyze_file_structure c1_ws).2 = [("main.py", ["os", "foo"])] :=
  ⟨by decide, by decide, by decide⟩

/-- C3 counterexample: in the workspace `c3_ws` the `requirements.txt`
manifest check yields `Django`, yet the sampling pass still contributes
`React` to the label, so sampling is not suppressed by every manifest
signal. -/
theorem c3_sampling_counterexample :
    ¬ (detect_framework_list_noSample c3_ws ≠ [] →
        detect_framework_list c3_ws = detect_framework_list_noSample c3_ws) := by
  decide

/-- C3 amended: the content-sampling fallback is suppressed exactly by the
`package.json` manifest check: whenever that check yields a framework, the
full detection list coincides with the manifest-only list.  (The
`requirements.txt`, `go.mod`, `pom.xml` and `build.gradle` checks run after
sampling and do not suppress it.) -/
theorem c3_sampling_skipped_when_pkg_signal (ws : List FSFile)
    (h : pkgFrameworks ws ≠ []) :
    detect_framework_list ws = detect_framework_list_noSample ws := by
  have hne : (pkgFrameworks ws).isEmpty = false := by
    cases hh : pkgFrameworks ws
    · exact absurd hh h
    · rfl
  simp [detect_framework_list, detect_framework_list_noSample, hne]

/-- Witness for the amended C3 at a workspace whose `package.json` declares
`react`. -/
theorem c3_sampling_skipped_witness :
    detect_framework_list c3_wit_ws = detect_framework_list_noSample c3_wit_ws :=
  c3_sampling_skipped_when_pkg_signal c3_wit_ws (by decide)

/-- C4: Python import extraction yields the empty sequence on a file whose
content does not parse, and on a parsed tree it returns exactly the alias
names of the `import` statements and the module names of the
`from ... import` statements occurring in the tree. -/
theorem c4_python_import_extraction :
    parse_imports_python none = [] ∧
    ∀ (t : PyNode) (x : String),
      x ∈ parse_imports_python (some t) ↔ DeclaresImport t x := by
  refine ⟨rfl, fun t x => ?_⟩
  unfold parse_imports_python
  rw [walkImports_mem x (PyNode.sizeList [t]) [t] (le_refl _)]
  simp

/-- Witness for C4: the unparsable case evaluated. -/
theorem c4_python_import_extraction_witness : parse_imports_python none = [] :=
  c4_python_import_extraction.1

/-- Witness for C5 at a workspace exercising all three entry point
sources. -/
theorem c5_entry_point_ordering_witness :
    find_entry_points c5_ws
      = rootEntryList c5_ws ++ scriptEntryList c5_ws ++ srcEntryList c5_ws :=
  c5_entry_point_ordering c5_ws

/-- C6: the dependency map is exactly the `(path, imports)` projection of
the produced file nodes with non-empty import list, so its keys form a
subset of the file node paths. -/
theorem c6_dependency_map_keys (ws : List FSFile) :
    (analyze_file_structure ws).2
      = ((analyze_file_structure ws).1.filter (fun n => !n.imports.isEmpty)).map
          (fun n => (n.path, n.imports)) ∧
    (analyze_file_structure ws).2.map Prod.fst
      ⊆ (analyze_file_structure ws).1.map FileNode.path := by
  have h := analyze_file_structure_eq ws
  constructor
  · rw [h]
    exact filterMap_deps _
  · intro p hp
    rw [h] at hp ⊢
    rw [filterMap_deps] at hp
    rw [List.map_map] at hp
    obtain ⟨n, hn, rfl⟩ := List.mem_map.mp hp
    exact List.mem_map.mpr ⟨n, List.mem_of_mem_filter hn, rfl⟩

/-- Witness for C6 at a concrete two-file workspace. -/
theorem c6_dependency_map_keys_witness :
    (analyze_file_structure c6_ws).2
      = ((analyze_file_structure c6_ws).1.filter (fun n => !n.imports.isEmpty)).map
          (fun n => (n.path, n.imports)) ∧
    (analyze_file_structure c6_ws).2.map Prod.fst
      ⊆ (analyze_file_structure c6_ws).1.map FileNode.path :=
  c6_dependency_map_keys c6_ws

/-- C7: every `/analyze` run removes its temporary clone directory on every
exit path, and a failing clone surfaces as the 400 client error carrying
the clone failure detail. -/
theorem c7_clone_failure_and_cleanup (env : AnalyzeEnv) (url : String) :
    (analyze_repository env url).tempDirRemoved = true ∧
    ∀ e, env.cloneResult = Except.error e →
      (analyze_repository env url).result
        = Except.error (AnalyzeError.http 400 ("Failed to clone repository: " ++ e)) := by
  refine ⟨rfl, fun e he => ?_⟩
  simp [analyze_repository, analyze_body, he]

/-- Witness for C7 at an environment whose clone fails. -/
theorem c7_clone_failure_and_cleanup_witness :
    (analyze_repository c7_env "https://example.com/missing.git").tempDirRemoved = true ∧
    (analyze_repository c7_env "https://example.com/missing.git").result
      = Except.error (AnalyzeError.http 400 ("Failed to clone repository: " ++ "no such repo")) :=
  ⟨(c7_clone_failure_and_cleanup c7_env "https://example.com/missing.git").1,
   (c7_clone_failure_and_cleanup c7_env "https://example.com/missing.git").2 "no such repo" rfl⟩

/-- C8: the insight pass is total, and whenever the API key is missing (or
empty) or the external call fails, it returns a placeholder beginning with
the unavailability explanation instead of propagating the failure. -/
theorem c8_insights_never_fail (env : LlmEnv) (info : RepoInfo)
    (h : env.apiKey = none ∨ env.apiKey = some "" ∨
      ∃ e, env.send (mkPrompt info) = Except.error e) :
    List.isPrefixOf ("AI insights unavailable".data)
      ((get_ai_insights env info).data) = true := by
  rcases h with h | h | ⟨e, h⟩
  · simp only [get_ai_insights, h]
    decide
  · simp only [get_ai_insights, h]
    rw [if_pos (by decide)]
    decide
  · cases hk : env.apiKey with
    | none =>
      simp only [get_ai_insights, hk]
      decide
    | some k =>
      cases hke : (k == "") with
      | true =>
        simp only [get_ai_insights, hk, hke, if_true]
        decide
      | false =>
        simp only [get_ai_insights, hk, hke, Bool.false_eq_true, if_false, h]
        rw [String.data_append]
        exact isPrefixOf_append_right _ _ _ (by decide)

/-- Witness for C8 with the API key unset. -/
theorem c8_insights_never_fail_witness :
    List.isPrefixOf ("AI insights unavailable".data)
      ((get_ai_insights c8_env c8_info).data) = true :=
  c8_insights_never_fail c8_env c8_info (Or.inl rfl)

/-- C9: import extraction is a pure function of the file content in both
the Python and the JavaScript strategy, so two runs over an unchanged file
return identical, identically ordered sequences. -/
theorem c9_extraction_deterministic :
    ∀ (pyParse : Option PyNode) (content : Option String),
      parse_imports_python pyParse = parse_imports_python pyParse ∧
      parse_imports_js content = parse_imports_js content :=
  fun _ _ => ⟨rfl, rfl⟩

/-- Witness for C9 on a concrete JavaScript source. -/
theorem c9_extraction_deterministic_witness :
    parse_imports_js (some "const a = 1") = parse_imports_js (some "const a = 1") :=
  (c9_extraction_deterministic none (some "const a = 1")).2

/-- C10: `.go` and `.java` are in the recognized code extension set, yet no
extraction strategy is dispatched for them, so every produced node of such
type carries an empty import list and its path never keys the dependency
map. -/
theorem c10_go_java_no_extractor :
    (".go" ∈ code_extensions ∧ ".java" ∈ code_extensions) ∧
    ∀ (ws : List FSFile) (n : FileNode),
      ((analyze_file_structure ws).1.map FileNode.path).Nodup →
      n ∈ (analyze_file_structure ws).1 →
      (n.type = ".go" ∨ n.type = ".java") →
      n.imports = [] ∧ n.path ∉ (analyze_file_structure ws).2.map Prod.fst := by
  refine ⟨⟨by decide, by decide⟩, ?_⟩
  intro ws n hnd hmem htype
  have ha := analyze_file_structure_eq ws
  rw [ha] at hmem hnd
  obtain ⟨f, hf, rfl⟩ := List.mem_map.mp hmem
  have hext : fileExt f = ".go" ∨ fileExt f = ".java" := by
    rcases htype with ht | ht
    · cases he : (fileExt f == "") with
      | true =>
        have : (mkNode f).type = "file" := by simp [mkNode, he]
        rw [this] at ht
        exact absurd ht (by decide)
      | false =>
        left
        have : (mkNode f).type = fileExt f := by simp [mkNode, he]
        rw [this] at ht
        exact ht
    · cases he : (fileExt f == "") with
      | true =>
        have : (mkNode f).type = "file" := by simp [mkNode, he]
        rw [this] at ht
        exact absurd ht (by decide)
      | false =>
        right
        have : (mkNode f).type = fileExt f := by simp [mkNode, he]
        rw [this] at ht
        exact ht
  have himp : (mkNode f).imports = [] := by
    rcases hext with he | he
    · simp [mkNode, fileImports_go he]
    · simp [mkNode, fileImports_java he]
  refine ⟨himp, ?_⟩
  intro hkey
  rw [ha] at hkey
  rw [filterMap_deps] at hkey
  rw [List.map_map] at hkey
  obtain ⟨m, hm, hpath⟩ := List.mem_map.mp hkey
  have hmf : m ∈ (ws.filter includeFile).map mkNode := (List.mem_filter.mp hm).1
  have heq : m = mkNode f :=
    List.inj_on_of_nodup_map hnd hmf hmem hpath
  have hmne : (!m.imports.isEmpty) = true := (List.mem_filter.mp hm).2
  rw [heq, himp] at hmne
  simp at hmne

/-- Witness for C10 at a workspace holding one Go file. -/
theorem c10_go_java_no_extractor_witness :
    (mkNode c10_file).imports = [] ∧
    (mkNode c10_file).path ∉ (analyze_file_structure c10_ws).2.map Prod.fst :=
  c10_go_java_no_extractor.2 c10_ws (mkNode c10_file) (by decide) (by decide)
    (Or.inl (by decide))
